import Mathlib

/-!
Verification of the go-email core: the Message model and its validation
(`Message.Validate` in email.go), the Gmail MIME encoder
(`gmailProvider.createMessage` / `addAttachment` in email.go), content-type
inference (`getContentType` in outlook.go), and the client facade
(`NewClient`, `Client.Send`, `Client.SendWithContext` in email.go).

Modelling notes:
  * Go byte slices become `List Nat` with the invariant that every byte is
    below 256 stated as a hypothesis where it matters.
  * Go `error` results become `Option String` (`none` = nil error) or
    `Except String α` where the source returns a pair `(value, error)`.
  * The source builds its header block by ranging over a Go `map[string]string`,
    whose iteration order is unspecified; the embedding therefore takes the
    emission order of the header key/value pairs as an explicit parameter
    `ord`, constrained in theorems to be a permutation of the map's contents
    (`messageHeaders`).
  * The multipart boundary is derived from `time.Now().UnixNano()` in the
    source; the embedding takes the boundary string as an explicit parameter
    (`mkBoundary` maps the nanosecond clock reading to the boundary string).
-/

namespace GoEmail

/-- Attachment (email.go): a file attachment; `Content` is the raw byte
sequence (`[]byte` in the source, each entry below 256). -/
structure Attachment where
  Filename : String
  Content : List Nat
  MimeType : String
deriving DecidableEq

/-- Message (email.go): one outbound email. -/
structure Message where
  From : String
  To : List String
  Cc : List String
  Bcc : List String
  Subject : String
  Body : String
  HTML : Bool
  Attachments : List Attachment
deriving DecidableEq

/-- Message.Validate (email.go lines 205-219): returns the first
validation failure, or `none` when the message is valid. -/
def Message.Validate (m : Message) : Option String :=
  if m.From = "" then some "from address is required"
  else if m.To.length = 0 then some "at least one recipient is required"
  else if m.Subject = "" then some "subject is required"
  else if m.Body = "" then some "body is required"
  else none

/-- Context (modelling Go's context.Context for this core): only the deadline
matters to the facade; `none` is the background context. -/
def Ctx : Type := Option Nat

/-- context.Background(): no deadline. -/
def contextBackground : Ctx := none

/-- context.WithTimeout(parent, d): a context carrying deadline `d`. -/
def contextWithTimeout (_parent : Ctx) (d : Nat) : Ctx := some d

/-- Provider (email.go lines 81-85): the transport interface, one operation
`Send(ctx, msg) error`; `none` is a nil error. -/
def Provider : Type := Ctx → Message → Option String

/-- Client (email.go lines 130-132): wraps one bound Provider. -/
structure Client where
  provider : Provider

/-- Client.SendWithContext (email.go lines 194-201): validates, wraps a
validation failure, otherwise delegates to the bound provider. -/
def Client.SendWithContext (c : Client) (ctx : Ctx) (msg : Message) :
    Option String :=
  match msg.Validate with
  | some e => some ("invalid message: " ++ e)
  | none => c.provider ctx msg

/-- Client.Send (email.go lines 178-182): builds a 30-second timeout context
and delegates to SendWithContext. -/
def Client.Send (c : Client) (msg : Message) : Option String :=
  c.SendWithContext (contextWithTimeout contextBackground 30) msg

/-- Modelled from the spec: "send behaves as the deadline variant invoked
with a fixed default deadline of 30 time units" — the spec-side definition
of the no-deadline send, to be compared with `Client.Send`. -/
def sendSpecDefault (c : Client) (msg : Message) : Option String :=
  c.SendWithContext (some 30) msg

/-- OutlookConfig (email.go lines 107-116). -/
structure OutlookConfig where
  TenantID : String
  ClientID : String
  ClientSecret : String
deriving DecidableEq

/-- GmailConfig (email.go lines 119-126): credential and token bytes. -/
structure GmailConfig where
  CredentialsJSON : List Nat
  TokenJSON : List Nat
deriving DecidableEq

/-- Config (email.go lines 89-104): provider selector plus at most one
provider-specific sub-configuration. -/
structure Config where
  Provider : String
  Outlook : Option OutlookConfig
  Gmail : Option GmailConfig

/-- NewClient (email.go lines 149-173). The two provider constructors call
external SDKs (newOutlookProvider, newGmailProvider), so they are passed in
as opaque parameters; the switch, the missing-sub-configuration checks and
the error wrapping are the source's. -/
def NewClient (newOutlookProvider : OutlookConfig → Except String Provider)
    (newGmailProvider : GmailConfig → Except String Provider)
    (config : Config) : Except String Client :=
  if config.Provider = "outlook365" then
    match config.Outlook with
    | none => .error "outlook configuration is required"
    | some oc =>
      match newOutlookProvider oc with
      | .error e => .error ("failed to create provider: " ++ e)
      | .ok p => .ok ⟨p⟩
  else if config.Provider = "gmail" then
    match config.Gmail with
    | none => .error "gmail configuration is required"
    | some gc =>
      match newGmailProvider gc with
      | .error e => .error ("failed to create provider: " ++ e)
      | .ok p => .ok ⟨p⟩
  else
    .error ("unsupported provider: " ++ config.Provider)

/-- strings.Join(elems, sep): concatenates with the separator between
consecutive elements. -/
def strJoin (elems : List String) (sep : String) : String :=
  match elems with
  | [] => ""
  | [x] => x
  | x :: rest => x ++ sep ++ strJoin rest sep

/-- strings.ToLower restricted to ASCII (the only case the content-type
table exercises): `A`..`Z` map to `a`..`z`, all else unchanged. -/
def toLowerChar (c : Char) : Char :=
  if 'A' ≤ c ∧ c ≤ 'Z' then Char.ofNat (c.toNat + 32) else c

/-- strings.ToLower on a whole string (ASCII fragment). -/
def stringToLower (s : String) : String := String.mk (s.data.map toLowerChar)

/-- Scan of filepath.Ext, over the reversed character list: walk backwards
from the end of the path; a dot yields the suffix from that dot, a path
separator (or running out of characters) yields the empty extension. -/
def extAux : List Char → List Char → List Char
  | [], _ => []
  | c :: rest, acc =>
    if c = '.' then '.' :: acc
    else if c = '/' then []
    else extAux rest (c :: acc)

/-- filepath.Ext(path): the suffix beginning at the final dot in the final
path element; empty if there is no dot. -/
def filepathExt (path : String) : String :=
  String.mk (extAux path.data.reverse [])

/-- The body of getContentType's switch statement, case by case in source
order; the default case is application/octet-stream. -/
def mimeSwitch (ext : String) : String :=
  if ext = ".pdf" then "application/pdf"
  else if ext = ".doc" then "application/msword"
  else if ext = ".docx" then
    "application/vnd.openxmlformats-officedocument.wordprocessingml.document"
  else if ext = ".xls" then "application/vnd.ms-excel"
  else if ext = ".xlsx" then
    "application/vnd.openxmlformats-officedocument.spreadsheetml.sheet"
  else if ext = ".png" then "image/png"
  else if ext = ".jpg" ∨ ext = ".jpeg" then "image/jpeg"
  else if ext = ".gif" then "image/gif"
  else if ext = ".txt" then "text/plain"
  else if ext = ".html" ∨ ext = ".htm" then "text/html"
  else if ext = ".zip" then "application/zip"
  else if ext = ".csv" then "text/csv"
  else if ext = ".xml" then "application/xml"
  else if ext = ".json" then "application/json"
  else "application/octet-stream"

/-- getContentType (outlook.go lines 160-194): the switch over the
lowercased filename extension. -/
def getContentType (filename : String) : String :=
  mimeSwitch (stringToLower (filepathExt filename))

/-- The fixed extension table of getContentType, as an association list
(keys in source order). -/
def mimeTable : List (String × String) :=
  [(".pdf", "application/pdf"),
   (".doc", "application/msword"),
   (".docx",
    "application/vnd.openxmlformats-officedocument.wordprocessingml.document"),
   (".xls", "application/vnd.ms-excel"),
   (".xlsx",
    "application/vnd.openxmlformats-officedocument.spreadsheetml.sheet"),
   (".png", "image/png"),
   (".jpg", "image/jpeg"),
   (".jpeg", "image/jpeg"),
   (".gif", "image/gif"),
   (".txt", "text/plain"),
   (".html", "text/html"),
   (".htm", "text/html"),
   (".zip", "application/zip"),
   (".csv", "text/csv"),
   (".xml", "application/xml"),
   (".json", "application/json")]

/-- Attachment MIME resolution (email.go lines 746-749): the explicit
MimeType when non-empty, otherwise extension-based inference. -/
def resolveMimeType (att : Attachment) : String :=
  if att.MimeType = "" then getContentType att.Filename else att.MimeType

/-- The standard base64 alphabet (RFC 2045 / RFC 4648), as used by Go's
base64.StdEncoding. -/
def b64Alphabet : List Char :=
  "ABCDEFGHIJKLMNOPQRSTUVWXYZabcdefghijklmnopqrstuvwxyz0123456789+/".data

/-- The alphabet character of a 6-bit value. -/
def b64Char (n : Nat) : Char := b64Alphabet.getD n 'A'

/-- The 6-bit value of an alphabet character. -/
def b64Index (c : Char) : Nat := b64Alphabet.findIdx (fun d => d == c)

/-- base64.StdEncoding.EncodeToString: three input bytes become four
alphabet characters; a trailing group of one or two bytes is padded
with `=`. -/
def encB64 : List Nat → List Char
  | [] => []
  | [b0] => [b64Char (b0 / 4), b64Char (b0 % 4 * 16), '=', '=']
  | [b0, b1] =>
    [b64Char (b0 / 4), b64Char (b0 % 4 * 16 + b1 / 16),
     b64Char (b1 % 16 * 4), '=']
  | b0 :: b1 :: b2 :: rest =>
    b64Char (b0 / 4) :: b64Char (b0 % 4 * 16 + b1 / 16)
      :: b64Char (b1 % 16 * 4 + b2 / 64) :: b64Char (b2 % 64) :: encB64 rest

/-- Modelled from the spec: the standard base64 decoder ("decodable back to
the original byte content via standard base64 decoding"), on well-formed
encoder output: four characters yield three bytes, with `=` padding marking
a short final group. -/
def decB64 : List Char → List Nat
  | c0 :: c1 :: c2 :: c3 :: rest =>
    if c2 = '=' then [b64Index c0 * 4 + b64Index c1 / 16]
    else if c3 = '=' then
      [b64Index c0 * 4 + b64Index c1 / 16,
       b64Index c1 % 16 * 16 + b64Index c2 / 4]
    else
      (b64Index c0 * 4 + b64Index c1 / 16)
        :: (b64Index c1 % 16 * 16 + b64Index c2 / 4)
        :: (b64Index c2 % 4 * 64 + b64Index c3)
        :: decB64 rest
  | _ => []

/-- The loop of addAttachment's 76-character hard wrap, indexed by the
number of iterations still allowed (the loop at email.go lines 762-769 runs
once per started 76-character block, so any fuel of at least the character
count reproduces it). -/
def wrapLinesFuel : Nat → List Char → List (List Char)
  | _, [] => []
  | 0, _ :: _ => []
  | n + 1, c :: cs => (c :: cs).take 76 :: wrapLinesFuel n ((c :: cs).drop 76)

/-- The 76-character hard wrap of addAttachment (email.go lines 762-769):
the encoded characters split into consecutive runs of at most 76. -/
def wrapLines (s : List Char) : List (List Char) := wrapLinesFuel s.length s

/-- addAttachment (email.go lines 744-772): one attachment part — boundary
line, MIME headers, blank line, base64 content wrapped at 76 characters with
CRLF line ends, trailing blank line. -/
def addAttachment (boundary : String) (att : Attachment) : String :=
  "--" ++ boundary ++ "\r\n"
  ++ "Content-Type: " ++ resolveMimeType att ++ "; name=\"" ++ att.Filename
  ++ "\"\r\n"
  ++ "Content-Transfer-Encoding: base64\r\n"
  ++ "Content-Disposition: attachment; filename=\"" ++ att.Filename
  ++ "\"\r\n"
  ++ "\r\n"
  ++ String.join ((wrapLines (encB64 att.Content)).map
      (fun l => String.mk l ++ "\r\n"))
  ++ "\r\n"

/-- The contents of createMessage's headers map (email.go lines 672-691 and
718-723): keys and values exactly as the source assigns them, in assignment
order; Cc/Bcc entries exist only when the sequences are non-empty, and the
Content-Type entry depends on the attachment count and the HTML flag. The
source iterates this map in Go's unspecified map order, so theorems quantify
over permutations of this list. -/
def messageHeaders (msg : Message) (boundary : String) :
    List (String × String) :=
  [("From", msg.From), ("To", strJoin msg.To ", ")]
  ++ (if msg.Cc.length > 0 then [("Cc", strJoin msg.Cc ", ")] else [])
  ++ (if msg.Bcc.length > 0 then [("Bcc", strJoin msg.Bcc ", ")] else [])
  ++ [("Subject", msg.Subject), ("MIME-Version", "1.0"),
      ("Content-Type",
        if msg.Attachments.length > 0 then
          "multipart/mixed; boundary=" ++ boundary
        else if msg.HTML then "text/html; charset=utf-8"
        else "text/plain; charset=utf-8")]

/-- The header block as written by `for k, v := range headers`: one
`k: v` CRLF line per map entry, in the given iteration order. -/
def headerBlock (ord : List (String × String)) : String :=
  String.join (ord.map fun kv => kv.1 ++ ": " ++ kv.2 ++ "\r\n")

/-- The boundary token of createMessage (email.go line 690):
fmt.Sprintf("boundary-%d", time.Now().UnixNano()) applied to the clock
reading. -/
def mkBoundary (nanos : Nat) : String := "boundary-" ++ toString nanos

/-- The body part's own Content-Type line (email.go lines 701-705). -/
def bodyPartHeader (msg : Message) : String :=
  if msg.HTML then "Content-Type: text/html; charset=utf-8\r\n"
  else "Content-Type: text/plain; charset=utf-8\r\n"

/-- createMessage's built string (email.go lines 668-731), before the
whole-message base64 framing the Gmail transport applies: headers, blank
line, then either the multipart body-and-attachments or the bare body.
`boundary` is the generated boundary token and `ord` the header map's
iteration order. -/
def createMessageRaw (msg : Message) (boundary : String)
    (ord : List (String × String)) : String :=
  if msg.Attachments.length > 0 then
    headerBlock ord ++ "\r\n"
    ++ "--" ++ boundary ++ "\r\n"
    ++ bodyPartHeader msg
    ++ "\r\n" ++ msg.Body ++ "\r\n\r\n"
    ++ String.join (msg.Attachments.map (addAttachment boundary))
    ++ "--" ++ boundary ++ "--\r\n"
  else
    headerBlock ord ++ "\r\n" ++ msg.Body

/-- createMessage (email.go lines 668-739): returns the built message and a
constantly-nil error (the source ends `return &gmail.Message{Raw: raw}, nil`;
the whole-message base64url framing of `raw` is the transport-side
encapsulation). -/
def createMessage (msg : Message) (boundary : String)
    (ord : List (String × String)) : Except String String :=
  .ok (createMessageRaw msg boundary ord)

/-- gmailProvider.Send (email.go lines 649-663): build the message — wrapping
a creation failure as "unable to create message" — then hand it to the Gmail
API call (opaque `sendRaw`), wrapping its failure as "unable to send
message". -/
def gmailSend (sendRaw : String → Option String) (msg : Message)
    (boundary : String) (ord : List (String × String)) : Option String :=
  match createMessage msg boundary ord with
  | .error e => some ("unable to create message: " ++ e)
  | .ok raw =>
    match sendRaw raw with
    | some e => some ("unable to send message: " ++ e)
    | none => none

/-- C3: Validate checks from, to, subject, body in that fixed order and
returns the error of the first violated check; it succeeds exactly when all
four required fields are non-empty, independently of cc, bcc and
attachments. -/
theorem validate_first_failure_order (m : Message) :
    (m.Validate = none ↔ m.From ≠ "" ∧ m.To ≠ [] ∧ m.Subject ≠ "" ∧ m.Body ≠ "")
    ∧ (m.From = "" → m.Validate = some "from address is required")
    ∧ (m.From ≠ "" → m.To = [] →
        m.Validate = some "at least one recipient is required")
    ∧ (m.From ≠ "" → m.To ≠ [] → m.Subject = "" →
        m.Validate = some "subject is required")
    ∧ (m.From ≠ "" → m.To ≠ [] → m.Subject ≠ "" → m.Body = "" →
        m.Validate = some "body is required")
    ∧ (∀ cc bcc atts,
        Message.Validate { m with Cc := cc, Bcc := bcc, Attachments := atts }
          = m.Validate) := by
  unfold Message.Validate
  refine ⟨?_, ?_, ?_, ?_, ?_, ?_⟩
  · constructor
    · intro h
      by_cases h1 : m.From = "" <;> by_cases h2 : m.To.length = 0 <;>
        by_cases h3 : m.Subject = "" <;> by_cases h4 : m.Body = "" <;>
        simp [h1, h2, h3, h4] at h ⊢ <;>
        simp [List.length_eq_zero] at h2 <;> tauto
    · rintro ⟨h1, h2, h3, h4⟩
      have h2' : ¬ m.To.length = 0 := by
        simpa [List.length_eq_zero] using h2
      simp [h1, h2', h3, h4]
  · intro h1; simp [h1]
  · intro h1 h2; simp [h1, h2]
  · intro h1 h2 h3
    have h2' : ¬ m.To.length = 0 := by simpa [List.length_eq_zero] using h2
    simp [h1, h2', h3]
  · intro h1 h2 h3 h4
    have h2' : ¬ m.To.length = 0 := by simpa [List.length_eq_zero] using h2
    simp [h1, h2', h3, h4]
  · intro cc bcc atts; rfl

/-- C7: Send and SendWithContext validate before delegating; on a validation
failure they return the wrapped validation error and the bound transport is
never consulted (the result is the same for every transport); on success the
message goes to the transport unchanged and the transport's result is
returned. -/
theorem send_validates_before_transport (c : Client) (ctx : Ctx)
    (m : Message) :
    (∀ e, m.Validate = some e →
      c.SendWithContext ctx m = some ("invalid message: " ++ e)
      ∧ ∀ c2 : Client, Client.SendWithContext c2 ctx m
          = c.SendWithContext ctx m)
    ∧ (m.Validate = none → c.SendWithContext ctx m = c.provider ctx m)
    ∧ c.Send m = c.SendWithContext (contextWithTimeout contextBackground 30) m
      := by
  refine ⟨?_, ?_, rfl⟩
  · intro e he
    constructor
    · simp [Client.SendWithContext, he]
    · intro c2; simp [Client.SendWithContext, he]
  · intro h; simp [Client.SendWithContext, h]

/-- C9: the no-deadline Send equals the deadline variant at the fixed default
deadline of 30 seconds: Send constructs a 30-second timeout context from the
background context and delegates to SendWithContext on it. -/
theorem send_default_deadline (c : Client) (m : Message) :
    c.Send m = sendSpecDefault c m
    ∧ c.Send m = c.SendWithContext (contextWithTimeout contextBackground 30) m
    ∧ contextWithTimeout contextBackground 30 = some 30 :=
  ⟨rfl, rfl, rfl⟩

/-- C8: NewClient fails exactly as the configuration dictates: an unknown
selector is an error, a selected provider with a missing sub-configuration is
an error, and in both cases the result does not depend on the provider
constructors (no transport is constructed). -/
theorem newclient_configuration_errors
    (mkOutlook : OutlookConfig → Except String Provider)
    (mkGmail : GmailConfig → Except String Provider) (cfg : Config) :
    (cfg.Provider ≠ "outlook365" → cfg.Provider ≠ "gmail" →
      NewClient mkOutlook mkGmail cfg
        = .error ("unsupported provider: " ++ cfg.Provider)
      ∧ ∀ mkO2 mkG2, NewClient mkO2 mkG2 cfg
          = NewClient mkOutlook mkGmail cfg)
    ∧ (cfg.Provider = "outlook365" → cfg.Outlook = none →
      NewClient mkOutlook mkGmail cfg
        = .error "outlook configuration is required"
      ∧ ∀ mkO2 mkG2, NewClient mkO2 mkG2 cfg
          = NewClient mkOutlook mkGmail cfg)
    ∧ (cfg.Provider = "gmail" → cfg.Gmail = none →
      NewClient mkOutlook mkGmail cfg
        = .error "gmail configuration is required"
      ∧ ∀ mkO2 mkG2, NewClient mkO2 mkG2 cfg
          = NewClient mkOutlook mkGmail cfg) := by
  refine ⟨?_, ?_, ?_⟩
  · intro h1 h2
    constructor
    · simp [NewClient, h1, h2]
    · intro mkO2 mkG2; simp [NewClient, h1, h2]
  · intro h1 h2
    constructor
    · simp [NewClient, h1, h2]
    · intro mkO2 mkG2; simp [NewClient, h1, h2]
  · intro h1 h2
    have h1' : cfg.Provider ≠ "outlook365" := by simp [h1]
    constructor
    · simp [NewClient, h1, h1', h2]
    · intro mkO2 mkG2; simp [NewClient, h1, h1', h2]

/-- Every 6-bit value decodes back through the alphabet. -/
theorem b64Index_b64Char : ∀ n < 64, b64Index (b64Char n) = n := by decide

/-- No alphabet character is the padding character. -/
theorem b64Char_ne_pad (n : Nat) : b64Char n ≠ '=' := by
  by_cases h : n < 64
  · exact (by decide : ∀ m < 64, b64Char m ≠ '=') n h
  · have hlen : b64Alphabet.length ≤ n := by
      have : b64Alphabet.length = 64 := rfl
      omega
    rw [b64Char, List.getD_eq_default _ _ hlen]
    decide

/-- Standard base64 decoding inverts the encoder on byte sequences. -/
theorem decB64_encB64 : ∀ bs : List Nat, (∀ b ∈ bs, b < 256) →
    decB64 (encB64 bs) = bs
  | [], _ => rfl
  | [b0], h => by
    have hb0 : b0 < 256 := h b0 (by simp)
    simp only [encB64, decB64, if_pos rfl]
    rw [b64Index_b64Char (b0 / 4) (by omega),
      b64Index_b64Char (b0 % 4 * 16) (by omega)]
    have e1 : b0 / 4 * 4 + b0 % 4 * 16 / 16 = b0 := by omega
    rw [e1]
    simp
  | [b0, b1], h => by
    have hb0 : b0 < 256 := h b0 (by simp)
    have hb1 : b1 < 256 := h b1 (by simp)
    simp only [encB64, decB64, if_neg (b64Char_ne_pad _), if_pos rfl]
    rw [b64Index_b64Char (b0 / 4) (by omega),
      b64Index_b64Char (b0 % 4 * 16 + b1 / 16) (by omega),
      b64Index_b64Char (b1 % 16 * 4) (by omega)]
    have e1 : b0 / 4 * 4 + (b0 % 4 * 16 + b1 / 16) / 16 = b0 := by omega
    have e2 : (b0 % 4 * 16 + b1 / 16) % 16 * 16 + b1 % 16 * 4 / 4 = b1 := by
      omega
    rw [e1, e2]
    simp
  | b0 :: b1 :: b2 :: rest, h => by
    have hb0 : b0 < 256 := h b0 (by simp)
    have hb1 : b1 < 256 := h b1 (by simp)
    have hb2 : b2 < 256 := h b2 (by simp)
    have ih := decB64_encB64 rest (fun b hb => h b (by simp [hb]))
    simp only [encB64]
    rw [decB64]
    rw [if_neg (b64Char_ne_pad _), if_neg (b64Char_ne_pad _)]
    rw [b64Index_b64Char (b0 / 4) (by omega),
      b64Index_b64Char (b0 % 4 * 16 + b1 / 16) (by omega),
      b64Index_b64Char (b1 % 16 * 4 + b2 / 64) (by omega),
      b64Index_b64Char (b2 % 64) (by omega)]
    have e1 : b0 / 4 * 4 + (b0 % 4 * 16 + b1 / 16) / 16 = b0 := by omega
    have e2 : (b0 % 4 * 16 + b1 / 16) % 16 * 16
        + (b1 % 16 * 4 + b2 / 64) / 4 = b1 := by omega
    have e3 : (b1 % 16 * 4 + b2 / 64) % 4 * 64 + b2 % 64 = b2 := by omega
    rw [e1, e2, e3, ih]

/-- With enough fuel, concatenating the wrapped lines restores the encoded
characters. -/
theorem wrapLinesFuel_flatten : ∀ n : Nat, ∀ s : List Char, s.length ≤ n →
    (wrapLinesFuel n s).flatten = s := by
  intro n
  induction n with
  | zero =>
    intro s hs
    have : s = [] := List.length_eq_zero.mp (Nat.le_zero.mp hs)
    subst this
    rfl
  | succ n ih =>
    intro s hs
    cases s with
    | nil => rfl
    | cons c cs =>
      rw [wrapLinesFuel]
      have hlen : ((c :: cs).drop 76).length ≤ n := by
        simp only [List.length_drop, List.length_cons]
        simp only [List.length_cons] at hs
        omega
      rw [List.flatten_cons, ih _ hlen, List.take_append_drop]

/-- Concatenating the wrapped lines restores the encoded characters. -/
theorem wrapLines_flatten (s : List Char) : (wrapLines s).flatten = s :=
  wrapLinesFuel_flatten s.length s (Nat.le_refl _)

/-- Every line the fuel-indexed wrap produces holds at most 76 characters. -/
theorem wrapLinesFuel_length_le : ∀ n : Nat, ∀ s : List Char,
    ∀ l ∈ wrapLinesFuel n s, l.length ≤ 76 := by
  intro n
  induction n with
  | zero =>
    intro s l hl
    cases s with
    | nil => simp [wrapLinesFuel] at hl
    | cons c cs => simp [wrapLinesFuel] at hl
  | succ n ih =>
    intro s l hl
    cases s with
    | nil => simp [wrapLinesFuel] at hl
    | cons c cs =>
      rw [wrapLinesFuel] at hl
      rcases List.mem_cons.mp hl with h1 | h2
      · subst h1
        simp [List.length_take]
      · exact ih _ l h2

/-- Every wrapped line holds at most 76 characters. -/
theorem wrapLines_length_le (s : List Char) : ∀ l ∈ wrapLines s,
    l.length ≤ 76 :=
  wrapLinesFuel_length_le s.length s

/-- C2: with attachments present, the encoded output is the header block, the
body part, then one part per attachment in input order, then the closing
boundary; each part is produced by addAttachment from its attachment, the
concatenation of a part content lines base64-decodes to the original bytes,
and every content line is at most 76 characters. -/
theorem attachments_in_order_roundtrip (msg : Message) (b : String)
    (ord : List (String × String)) (hatt : msg.Attachments ≠ [])
    (hbytes : ∀ att ∈ msg.Attachments, ∀ byte ∈ att.Content, byte < 256) :
    createMessageRaw msg b ord
      = headerBlock ord ++ "\r\n"
        ++ "--" ++ b ++ "\r\n"
        ++ bodyPartHeader msg
        ++ "\r\n" ++ msg.Body ++ "\r\n\r\n"
        ++ String.join (msg.Attachments.map (addAttachment b))
        ++ "--" ++ b ++ "--\r\n"
    ∧ (msg.Attachments.map (addAttachment b)).length = msg.Attachments.length
    ∧ ∀ att ∈ msg.Attachments,
        decB64 ((wrapLines (encB64 att.Content)).flatten) = att.Content
        ∧ ∀ line ∈ wrapLines (encB64 att.Content), line.length ≤ 76 := by
  have hpos : msg.Attachments.length > 0 := by
    cases hl : msg.Attachments with
    | nil => exact absurd hl hatt
    | cons a t => simp [hl]
  refine ⟨?_, List.length_map _ _, ?_⟩
  · rw [createMessageRaw, if_pos hpos]
  · intro att hmem
    refine ⟨?_, wrapLines_length_le _⟩
    rw [wrapLines_flatten]
    exact decB64_encB64 _ (hbytes att hmem)

/-- C10: createMessage returns a nil error on every input (valid or not), so
the "unable to create message" branch of gmailProvider.Send is unreachable:
the send result is never that wrapped creation error. -/
theorem create_message_never_fails (msg : Message) (b : String)
    (ord : List (String × String)) (sendRaw : String → Option String) :
    createMessage msg b ord = Except.ok (createMessageRaw msg b ord)
    ∧ (∀ e, gmailSend sendRaw msg b ord
        ≠ some ("unable to create message: " ++ e)) := by
  refine ⟨rfl, ?_⟩
  intro e
  rw [gmailSend]
  cases hs : sendRaw (createMessageRaw msg b ord) with
  | none => simp [createMessage, hs]
  | some e2 =>
    simp only [createMessage, hs]
    intro hcontra
    have hd : ("unable to send message: " ++ e2).data
        = ("unable to create message: " ++ e).data := by
      have := Option.some.inj hcontra
      rw [this]
    have hd2 : "unable to send message: ".data ++ e2.data
        = "unable to create message: ".data ++ e.data := hd
    simp at hd2

/-- Scanning backwards over characters that are neither a dot nor a path
separator, the scan of filepath.Ext returns the suffix from the next dot. -/
theorem extAux_scan (pre : List Char) :
    ∀ acc r : List Char, (∀ c ∈ pre, c ≠ '.' ∧ c ≠ '/') →
    extAux (pre ++ '.' :: r) acc = '.' :: (pre.reverse ++ acc) := by
  induction pre with
  | nil => intro acc r _; simp [extAux]
  | cons c t ih =>
    intro acc r h
    have hc := h c (by simp)
    rw [List.cons_append, extAux, if_neg hc.1, if_neg hc.2]
    rw [ih (c :: acc) r (fun d hd => h d (by simp [hd]))]
    simp

/-- Appending an extension (a dot followed by dot-free, separator-free
characters) makes that extension the filepath extension. -/
theorem filepathExt_append (s e : String) (tail : List Char)
    (he : e.data = '.' :: tail) (h : ∀ c ∈ tail, c ≠ '.' ∧ c ≠ '/') :
    filepathExt (s ++ e) = e := by
  rw [filepathExt]
  have hd : (s ++ e).data = s.data ++ e.data := rfl
  rw [hd, he]
  have hrev : (s.data ++ '.' :: tail).reverse
      = tail.reverse ++ '.' :: s.data.reverse := by
    simp [List.reverse_append]
  rw [hrev, extAux_scan _ _ _ (fun c hc => h c (List.mem_reverse.mp hc))]
  simp [List.reverse_reverse]
  cases e with
  | mk d => simp at he; rw [he]

/-- C5: an attachment with empty mimeType gets its content type from the
lowercased filename extension against the fixed table — every table entry
resolves appended to any stem, a `.pdf` suffix gives application/pdf, an
extension outside the table (or a missing extension) gives
application/octet-stream — and a non-empty explicit mimeType is kept
unchanged. -/
theorem content_type_inference (s : String) (att : Attachment) :
    getContentType (s ++ ".pdf") = "application/pdf"
    ∧ (∀ em ∈ mimeTable, getContentType (s ++ em.1) = em.2)
    ∧ (stringToLower (filepathExt s) ∉ mimeTable.map Prod.fst →
        getContentType s = "application/octet-stream")
    ∧ (filepathExt s = "" → getContentType s = "application/octet-stream")
    ∧ (att.MimeType ≠ "" → resolveMimeType att = att.MimeType)
    ∧ (att.MimeType = "" →
        resolveMimeType att = getContentType att.Filename) := by
  refine ⟨?_, ?_, ?_, ?_, ?_, ?_⟩
  · rw [getContentType,
      filepathExt_append s ".pdf" ['p', 'd', 'f'] rfl (by decide)]
    decide
  · intro em hmem
    simp only [mimeTable] at hmem
    fin_cases hmem
    · rw [getContentType,
        filepathExt_append s ".pdf" ['p', 'd', 'f'] rfl (by decide)]
      decide
    · rw [getContentType,
        filepathExt_append s ".doc" ['d', 'o', 'c'] rfl (by decide)]
      decide
    · rw [getContentType,
        filepathExt_append s ".docx" ['d', 'o', 'c', 'x'] rfl (by decide)]
      decide
    · rw [getContentType,
        filepathExt_append s ".xls" ['x', 'l', 's'] rfl (by decide)]
      decide
    · rw [getContentType,
        filepathExt_append s ".xlsx" ['x', 'l', 's', 'x'] rfl (by decide)]
      decide
    · rw [getContentType,
        filepathExt_append s ".png" ['p', 'n', 'g'] rfl (by decide)]
      decide
    · rw [getContentType,
        filepathExt_append s ".jpg" ['j', 'p', 'g'] rfl (by decide)]
      decide
    · rw [getContentType,
        filepathExt_append s ".jpeg" ['j', 'p', 'e', 'g'] rfl (by decide)]
      decide
    · rw [getContentType,
        filepathExt_append s ".gif" ['g', 'i', 'f'] rfl (by decide)]
      decide
    · rw [getContentType,
        filepathExt_append s ".txt" ['t', 'x', 't'] rfl (by decide)]
      decide
    · rw [getContentType,
        filepathExt_append s ".html" ['h', 't', 'm', 'l'] rfl (by decide)]
      decide
    · rw [getContentType,
        filepathExt_append s ".htm" ['h', 't', 'm'] rfl (by decide)]
      decide
    · rw [getContentType,
        filepathExt_append s ".zip" ['z', 'i', 'p'] rfl (by decide)]
      decide
    · rw [getContentType,
        filepathExt_append s ".csv" ['c', 's', 'v'] rfl (by decide)]
      decide
    · rw [getContentType,
        filepathExt_append s ".xml" ['x', 'm', 'l'] rfl (by decide)]
      decide
    · rw [getContentType,
        filepathExt_append s ".json" ['j', 's', 'o', 'n'] rfl (by decide)]
      decide
  · intro h
    simp only [mimeTable, List.map, List.mem_cons, not_or] at h
    obtain ⟨h1, h2, h3, h4, h5, h6, h7, h8, h9, h10, h11, h12, h13, h14,
      h15, h16, -⟩ := h
    rw [getContentType, mimeSwitch]
    simp [h1, h2, h3, h4, h5, h6, h7, h8, h9, h10, h11, h12, h13, h14,
      h15, h16]
  · intro h
    rw [getContentType, h]
    decide
  · intro h
    rw [resolveMimeType, if_neg h]
  · intro h
    rw [resolveMimeType, if_pos h]

/-- In the header map of a message without attachments, the Content-Type
entry is the single body content type selected by the HTML flag. -/
theorem messageHeaders_filter_contentType (msg : Message) (b : String)
    (hatt : msg.Attachments = []) :
    (messageHeaders msg b).filter (fun kv => kv.1 == "Content-Type")
      = [("Content-Type",
          if msg.HTML then "text/html; charset=utf-8"
          else "text/plain; charset=utf-8")] := by
  by_cases hcc : msg.Cc.length > 0 <;> by_cases hbcc : msg.Bcc.length > 0 <;>
    simp [messageHeaders, hatt, hcc, hbcc]

/-- C4: with zero attachments the output is the simple single-part form —
header block, blank line, then the body verbatim — and any header emission
order (a permutation of the header map) carries exactly one Content-Type
header, whose value follows the HTML flag. -/
theorem no_attachment_single_part (msg : Message) (b : String)
    (ord : List (String × String)) (hatt : msg.Attachments = [])
    (hord : List.Perm ord (messageHeaders msg b)) :
    createMessageRaw msg b ord = headerBlock ord ++ "\r\n" ++ msg.Body
    ∧ ord.filter (fun kv => kv.1 == "Content-Type")
        = [("Content-Type",
            if msg.HTML then "text/html; charset=utf-8"
            else "text/plain; charset=utf-8")] := by
  constructor
  · rw [createMessageRaw, if_neg (by simp [hatt])]
  · have hf := hord.filter (fun kv => kv.1 == "Content-Type")
    rw [messageHeaders_filter_contentType msg b hatt] at hf
    exact List.perm_singleton.mp hf

/-- C6: in any header emission order (a permutation of the header map), an
empty cc sequence yields no Cc header at all and an empty bcc sequence no
Bcc header; a non-empty cc (resp. bcc) yields exactly one comma-joined Cc
(resp. Bcc) header. -/
theorem cc_bcc_omission (msg : Message) (b : String)
    (ord : List (String × String))
    (hord : List.Perm ord (messageHeaders msg b)) :
    (msg.Cc = [] → ∀ kv ∈ ord, kv.1 ≠ "Cc")
    ∧ (msg.Bcc = [] → ∀ kv ∈ ord, kv.1 ≠ "Bcc")
    ∧ (msg.Cc ≠ [] → ord.filter (fun kv => kv.1 == "Cc")
        = [("Cc", strJoin msg.Cc ", ")])
    ∧ (msg.Bcc ≠ [] → ord.filter (fun kv => kv.1 == "Bcc")
        = [("Bcc", strJoin msg.Bcc ", ")]) := by
  refine ⟨?_, ?_, ?_, ?_⟩
  · intro hcc kv hkv h
    have hmh : (messageHeaders msg b).filter (fun kv => kv.1 == "Cc")
        = [] := by
      by_cases hbcc : msg.Bcc.length > 0 <;>
        simp [messageHeaders, hcc, hbcc]
    have hf := hord.filter (fun kv => kv.1 == "Cc")
    rw [hmh] at hf
    have hord0 : ord.filter (fun kv => kv.1 == "Cc") = [] :=
      List.perm_nil.mp hf
    have hkvf : kv ∈ ord.filter (fun kv => kv.1 == "Cc") :=
      List.mem_filter.mpr ⟨hkv, by simp [h]⟩
    rw [hord0] at hkvf
    simp at hkvf
  · intro hbcc kv hkv h
    have hmh : (messageHeaders msg b).filter (fun kv => kv.1 == "Bcc")
        = [] := by
      by_cases hcc : msg.Cc.length > 0 <;>
        simp [messageHeaders, hbcc, hcc]
    have hf := hord.filter (fun kv => kv.1 == "Bcc")
    rw [hmh] at hf
    have hord0 : ord.filter (fun kv => kv.1 == "Bcc") = [] :=
      List.perm_nil.mp hf
    have hkvf : kv ∈ ord.filter (fun kv => kv.1 == "Bcc") :=
      List.mem_filter.mpr ⟨hkv, by simp [h]⟩
    rw [hord0] at hkvf
    simp at hkvf
  · intro hcc
    have hf := hord.filter (fun kv => kv.1 == "Cc")
    have hcc' : msg.Cc.length > 0 := by
      cases hl : msg.Cc with
      | nil => exact absurd hl hcc
      | cons a t => simp [hl]
    have hmh : (messageHeaders msg b).filter (fun kv => kv.1 == "Cc")
        = [("Cc", strJoin msg.Cc ", ")] := by
      by_cases hbcc : msg.Bcc.length > 0 <;>
        simp [messageHeaders, hcc', hbcc]
    rw [hmh] at hf
    exact List.perm_singleton.mp hf
  · intro hbcc
    have hf := hord.filter (fun kv => kv.1 == "Bcc")
    have hbcc' : msg.Bcc.length > 0 := by
      cases hl : msg.Bcc with
      | nil => exact absurd hl hbcc
      | cons a t => simp [hl]
    have hmh : (messageHeaders msg b).filter (fun kv => kv.1 == "Bcc")
        = [("Bcc", strJoin msg.Bcc ", ")] := by
      by_cases hcc : msg.Cc.length > 0 <;>
        simp [messageHeaders, hbcc', hcc]
    rw [hmh] at hf
    exact List.perm_singleton.mp hf

/-- A concrete valid message with one attachment, encoded at two different
clock readings in the determinism counterexample. -/
def msgBoundaryDep : Message :=
  { From := "a@x.com", To := ["b@y.com"], Cc := [], Bcc := [],
    Subject := "Hi", Body := "B", HTML := false,
    Attachments := [{ Filename := "f.pdf", Content := [77],
                      MimeType := "" }] }

/-- C1 counterexample: encoding the same Message at two clock readings (two
calls in one process give two nanosecond values, hence two boundary tokens)
yields two different raw strings, even with identical header iteration
order aside from the boundary-bearing value; the encoder is not
deterministic across calls. -/
theorem encoder_not_deterministic_cex :
    createMessageRaw msgBoundaryDep (mkBoundary 1)
        (messageHeaders msgBoundaryDep (mkBoundary 1))
      ≠ createMessageRaw msgBoundaryDep (mkBoundary 2)
        (messageHeaders msgBoundaryDep (mkBoundary 2)) := by decide

/-- C1 amended: encoding is deterministic only once the per-call inputs are
fixed — the output is a function of the Message, the boundary token and the
header iteration order alone, and for a Message without attachments it does
not depend on the boundary token at all (neither in the header map nor in
the output). -/
theorem encoder_deterministic_given_boundary_order (msg : Message)
    (b1 b2 : String) (ord : List (String × String))
    (hatt : msg.Attachments = []) :
    createMessageRaw msg b1 ord = createMessageRaw msg b2 ord
    ∧ messageHeaders msg b1 = messageHeaders msg b2 := by
  constructor
  · rw [createMessageRaw, createMessageRaw]
    rw [if_neg (by simp [hatt]), if_neg (by simp [hatt])]
  · rw [messageHeaders, messageHeaders]
    simp [hatt]

/-- C1 amended, witness: the boundary-independence at a concrete
attachment-free message. -/
theorem encoder_deterministic_given_boundary_order_w :
    createMessageRaw
        { From := "a@x.com", To := ["b@y.com"], Cc := [], Bcc := [],
          Subject := "Hi", Body := "Hello", HTML := false,
          Attachments := [] } (mkBoundary 1) []
      = createMessageRaw
        { From := "a@x.com", To := ["b@y.com"], Cc := [], Bcc := [],
          Subject := "Hi", Body := "Hello", HTML := false,
          Attachments := [] } (mkBoundary 2) []
    ∧ messageHeaders
        { From := "a@x.com", To := ["b@y.com"], Cc := [], Bcc := [],
          Subject := "Hi", Body := "Hello", HTML := false,
          Attachments := [] } (mkBoundary 1)
      = messageHeaders
        { From := "a@x.com", To := ["b@y.com"], Cc := [], Bcc := [],
          Subject := "Hi", Body := "Hello", HTML := false,
          Attachments := [] } (mkBoundary 2) :=
  encoder_deterministic_given_boundary_order _ (mkBoundary 1) (mkBoundary 2)
    [] rfl

/-- C2 witness message: one pdf attachment with one content byte. -/
theorem attachments_in_order_roundtrip_w :
    createMessageRaw msgBoundaryDep "bd" []
      = headerBlock [] ++ "\r\n"
        ++ "--" ++ "bd" ++ "\r\n"
        ++ bodyPartHeader msgBoundaryDep
        ++ "\r\n" ++ msgBoundaryDep.Body ++ "\r\n\r\n"
        ++ String.join (msgBoundaryDep.Attachments.map (addAttachment "bd"))
        ++ "--" ++ "bd" ++ "--\r\n"
    ∧ (msgBoundaryDep.Attachments.map (addAttachment "bd")).length
        = msgBoundaryDep.Attachments.length
    ∧ ∀ att ∈ msgBoundaryDep.Attachments,
        decB64 ((wrapLines (encB64 att.Content)).flatten) = att.Content
        ∧ ∀ line ∈ wrapLines (encB64 att.Content), line.length ≤ 76 :=
  attachments_in_order_roundtrip msgBoundaryDep "bd" [] (by decide)
    (by decide)

/-- The concrete scenario message of the spec: all four required fields
set, plain text, no attachments, no cc, no bcc. -/
def msgSimple : Message :=
  { From := "a@x.com", To := ["b@y.com"], Cc := [], Bcc := [],
    Subject := "Hi", Body := "Hello", HTML := false, Attachments := [] }

/-- C4 witness: the single-part form and the unique Content-Type header at
the spec's concrete scenario message, with the header map's own order. -/
theorem no_attachment_single_part_w :
    createMessageRaw msgSimple "b" (messageHeaders msgSimple "b")
      = headerBlock (messageHeaders msgSimple "b") ++ "\r\n"
        ++ msgSimple.Body
    ∧ (messageHeaders msgSimple "b").filter
        (fun kv => kv.1 == "Content-Type")
        = [("Content-Type",
            if msgSimple.HTML then "text/html; charset=utf-8"
            else "text/plain; charset=utf-8")] :=
  no_attachment_single_part msgSimple "b" (messageHeaders msgSimple "b")
    rfl (List.Perm.refl _)

/-- A message with one cc recipient and no bcc recipients, exercising both
the emission and the omission branch of the Cc/Bcc headers. -/
def msgWithCc : Message :=
  { From := "a@x.com", To := ["b@y.com"], Cc := ["c@z.com"], Bcc := [],
    Subject := "Hi", Body := "Hello", HTML := false, Attachments := [] }

/-- C6 witness: Cc emission and Bcc omission at a concrete message, with
the header map's own order. -/
theorem cc_bcc_omission_w :
    (msgWithCc.Cc = [] →
      ∀ kv ∈ messageHeaders msgWithCc "b", kv.1 ≠ "Cc")
    ∧ (msgWithCc.Bcc = [] →
      ∀ kv ∈ messageHeaders msgWithCc "b", kv.1 ≠ "Bcc")
    ∧ (msgWithCc.Cc ≠ [] →
      (messageHeaders msgWithCc "b").filter (fun kv => kv.1 == "Cc")
        = [("Cc", strJoin msgWithCc.Cc ", ")])
    ∧ (msgWithCc.Bcc ≠ [] →
      (messageHeaders msgWithCc "b").filter (fun kv => kv.1 == "Bcc")
        = [("Bcc", strJoin msgWithCc.Bcc ", ")]) :=
  cc_bcc_omission msgWithCc "b" (messageHeaders msgWithCc "b")
    (List.Perm.refl _)

end GoEmail
